import Mathlib

/-!
Verification development for the bot conversation-script model of the
urbangroup repository: the canonical Script format, the graph (node/edge)
authoring model, the graph-to-canonical compiler (flowToScript), the
canonical-to-graph decompiler (scriptToFlow), and the editor node-deletion
operation (deleteNode), all translated from
src/website/src/pages/BotFlowEditor/FlowCanvas.jsx (whose second document
is the flowUtils module holding scriptToFlow / flowToScript / emptyFlow).

Modelling conventions:
- JavaScript strings are Lean String; a missing string field of a JS object
  is the empty string (both are falsy in every use site, which only tests
  truthiness via the pattern x or-else y).
- The conditional-spread idiom (obj.f ? {f: obj.f} : {}) on object-valued
  fields (skip_if, target_script_id) is modelled with Option.
- JS x || y on strings is jsOr; o?.f || y on an optional object is
  jsOr (optStr (o.map f)) y.
- Date.now() is an impure clock read; it is modelled as an explicit extra
  argument now : Nat to flowToScript, and the formatted Hebrew date of
  new Date().toLocaleDateString is abstracted to the decimal rendering of
  the same clock value (only its dependence on the clock matters here).
- Array.prototype.sort (stable since ES2019) with the consistent
  total-preorder comparator used by the source is modelled as a stable
  insertion sort (jsSortBy), which agrees with every stable sort.
- String.prototype.startsWith is modelled by character-list prefix testing
  (jsStartsWith), equivalent to byte-prefix testing on UTF-8 strings.
- JS plain objects used as string-keyed maps with last-write-wins
  assignment (simpleNext, buttonNext, actionNext) are modelled as Lean
  functions updated by a left fold over the edge list.
- Node screen positions are modelled with integer coordinates.
-/

/-- Screen position of a node (layout hint only, not semantic). -/
structure Pos where
  x : Int
  y : Int
deriving DecidableEq, Repr

/-- Skip condition attached to a step: the compiler and decompiler read only
its field and goto attributes and otherwise pass the object through verbatim. -/
structure SkipIf where
  field : String
  goto : String
deriving DecidableEq, Repr

/-- One option of a buttons (choice) step. -/
structure BtnOption where
  id : String
  title : String
  next_step : String
  skip_if : Option SkipIf := none
deriving DecidableEq, Repr

/-- Canonical step variants, per the canonical Script JSON shape:
text_input has text, save_to, next_step and an optional skip_if;
buttons has text and an option list; action has action_type, field,
description, on_success, on_failure.  Every step may carry a step-level
skip_if. -/
inductive Step where
  | text_input (id text save_to next_step : String) (skip_if : Option SkipIf)
  | buttons (id text : String) (buttons : List BtnOption) (skip_if : Option SkipIf)
  | action (id action_type field description on_success on_failure : String)
      (skip_if : Option SkipIf)
deriving DecidableEq, Repr

/-- Step id, shared by all three variants. -/
def Step.id : Step → String
  | .text_input i _ _ _ _ => i
  | .buttons i _ _ _ => i
  | .action i _ _ _ _ _ _ => i

/-- Step-level skip condition, shared by all three variants. -/
def Step.skipIf : Step → Option SkipIf
  | .text_input _ _ _ _ sk => sk
  | .buttons _ _ _ sk => sk
  | .action _ _ _ _ _ _ sk => sk

/-- Option list of a buttons step at a given index (none for other variants). -/
def Step.optionAt : Step → Nat → Option BtnOption
  | .buttons _ _ bs _, i => bs[i]?
  | _, _ => none

/-- Terminal (done) action of the canonical format. -/
structure DoneAction where
  text : String
  action : String
  target_script_id : Option String := none
deriving DecidableEq, Repr

/-- Canonical Script, the root entity of the persisted format. done_actions
is an insertion-ordered string-keyed map, modelled as an association list;
so is the _flow_positions layout-hint map. active is optional because
flowToScript distinguishes an absent value from an explicit boolean. -/
structure Script where
  script_id : String
  name : String
  bot_instructions : String
  greeting_known : String
  greeting_unknown : String
  first_step : String
  steps : List Step
  done_actions : List (String × DoneAction)
  active : Option Bool
  flow_positions : List (String × Pos)
deriving DecidableEq, Repr

/-- Duck-typed react-flow node data. JS node data objects carry only the
fields of their node kind; a field missing from an object reads as falsy,
which the defaults here reproduce.  Exactly the fields the compiler or
decompiler ever reads or writes are modelled. -/
structure NodeData where
  name : String := ""
  bot_instructions : String := ""
  greeting_known : String := ""
  greeting_unknown : String := ""
  text : String := ""
  save_to : String := ""
  buttons : List BtnOption := []
  action_type : String := ""
  field : String := ""
  description : String := ""
  on_success : String := ""
  on_failure : String := ""
  skip_if : Option SkipIf := none
  action : String := ""
  target_script_id : Option String := none
deriving DecidableEq, Repr

/-- React-flow node: id, node type tag, optional position, data payload. -/
structure Node where
  id : String
  ntype : String
  position : Option Pos := none
  data : NodeData := {}
deriving DecidableEq, Repr

/-- React-flow edge as produced and consumed by the flow editor: source and
target node ids, an optional source handle naming the outgoing branch, and
the visual attributes the decompiler sets (label, stroke colour, dash
pattern). -/
structure Edge where
  id : String
  source : String
  sourceHandle : Option String := none
  target : String
  label : Option String := none
  stroke : Option String := none
  strokeDasharray : Option String := none
deriving DecidableEq, Repr

/-- JS string disjunction a || b: the left operand unless it is falsy
(empty). -/
def jsOr (a b : String) : String := if a = "" then b else a

/-- JS optional-chain read o?.f of a string field: a missing object reads as
falsy, i.e. as the empty string. -/
def optStr (o : Option String) : String := o.getD ""

/-- JS s.startsWith(p), modelled as character-list prefix testing. -/
def jsStartsWith (s p : String) : Bool := p.data.isPrefixOf s.data

/-- Stable insertion of a into an already processed list under a JS
comparator: a moves past every element it strictly follows (cmp a b
positive) and lands before the first element it does not. -/
def jsInsert (cmp : Node → Node → Int) (a : Node) : List Node → List Node
  | [] => [a]
  | b :: l => if 0 < cmp a b then b :: jsInsert cmp a l else a :: b :: l

/-- Stable sort by a JS comparator, modelling Array.prototype.sort (stable
per ES2019; the comparator used by the source is a consistent total
preorder, on which every stable sort agrees). -/
def jsSortBy (cmp : Node → Node → Int) : List Node → List Node
  | [] => []
  | a :: l => jsInsert cmp a (jsSortBy cmp l)

/-- JS Array.prototype.indexOf on a string list: first index, or -1. -/
def jsIndexOf (l : List String) (x : String) : Int :=
  match l.findIdx? (fun y => y == x) with
  | some i => (i : Int)
  | none => -1

/-- The comparator of flowToScript: steps already present in the previous
canonical script keep their relative order, steps only on one side come
first, and new steps tie-break by vertical position. -/
def stepCmp (ord : List String) (a b : Node) : Int :=
  let ai := jsIndexOf ord a.id
  let bi := jsIndexOf ord b.id
  if ai ≠ -1 ∧ bi ≠ -1 then ai - bi
  else if ai ≠ -1 then -1
  else if bi ≠ -1 then 1
  else (optY a.position) - (optY b.position)
where
  /-- JS a.position?.y || 0. -/
  optY : Option Pos → Int
    | some p => p.y
    | none => 0

/-- The three edge-resolution maps flowToScript builds from the edge list:
sourceId to target for single-exit edges, (sourceId, btn-i handle) to
target for choice edges, (sourceId, success/failure handle) to target for
check edges. -/
structure EdgeMaps where
  simpleNext : String → Option String
  buttonNext : String → String → Option String
  actionNext : String → String → Option String

/-- The empty edge maps. -/
def EdgeMaps.empty : EdgeMaps :=
  { simpleNext := fun _ => none, buttonNext := fun _ _ => none,
    actionNext := fun _ _ => none }

/-- Body of the edges.forEach classification loop of flowToScript: edges
out of the start node are skipped; a btn- handled edge updates buttonNext,
a success or failure handled edge updates actionNext, anything else
(including an absent handle) updates simpleNext.  Later edges overwrite
earlier ones at the same key, as JS object assignment does. -/
def recordEdge (m : EdgeMaps) (e : Edge) : EdgeMaps :=
  if e.source = "__start__" then m
  else
    match e.sourceHandle with
    | some h =>
      if jsStartsWith h "btn-" then
        { m with buttonNext := fun s hh =>
            if s = e.source ∧ hh = h then some e.target else m.buttonNext s hh }
      else if h = "success" ∨ h = "failure" then
        { m with actionNext := fun s hh =>
            if s = e.source ∧ hh = h then some e.target else m.actionNext s hh }
      else
        { m with simpleNext := fun s =>
            if s = e.source then some e.target else m.simpleNext s }
    | none =>
      { m with simpleNext := fun s =>
          if s = e.source then some e.target else m.simpleNext s }

/-- The edge maps built by folding the classification loop over the edges. -/
def buildMaps (edges : List Edge) : EdgeMaps := edges.foldl recordEdge .empty

/-- Node type test of the stepNodes filter in flowToScript. -/
def isStepNodeType (t : String) : Bool :=
  t == "stepNode" || t == "buttonsNode" || t == "actionNode"

/-- The start node lookup of flowToScript: first node of type startNode. -/
def findStartNode (nodes : List Node) : Option Node :=
  nodes.find? fun n => n.ntype == "startNode"

/-- The step nodes of the graph (stepNode, buttonsNode or actionNode), in
node-list order. -/
def stepNodesOf (nodes : List Node) : List Node :=
  nodes.filter fun n => isStepNodeType n.ntype

/-- The done (terminal) nodes of the graph, in node-list order. -/
def doneNodesOf (nodes : List Node) : List Node :=
  nodes.filter fun n => n.ntype == "doneNode"

/-- The per-step compilation of flowToScript: a buttonsNode becomes a
buttons step whose options take their next_step from the matching btn-i
handled edge, falling back to the value already held; an actionNode becomes
an action step resolving on_success and on_failure from the success and
failure handles with the same fallback; any other step node becomes a
text_input step whose next_step comes from the single-exit edge map and
whose skip_if is spread through when present. -/
def compileNode (m : EdgeMaps) (node : Node) : Step :=
  if node.ntype == "buttonsNode" then
    .buttons node.id (jsOr node.data.text "")
      (node.data.buttons.enum.map fun p =>
        { p.2 with next_step := (jsOr
            (jsOr (optStr (m.buttonNext node.id ("btn-" ++ toString p.1)))
              p.2.next_step) "") })
      none
  else if node.ntype == "actionNode" then
    .action node.id (jsOr node.data.action_type "check_equipment")
      (jsOr node.data.field "") (jsOr node.data.description "")
      (jsOr (jsOr (optStr (m.actionNext node.id "success")) node.data.on_success) "")
      (jsOr (jsOr (optStr (m.actionNext node.id "failure")) node.data.on_failure) "")
      none
  else
    .text_input node.id (jsOr node.data.text "") (jsOr node.data.save_to "")
      (jsOr (optStr (m.simpleNext node.id)) "")
      node.data.skip_if

/-- The done_actions entry flowToScript builds from a done node data
payload: text and action with their defaults, target_script_id spread in
only when truthy. -/
def compileDone (d : NodeData) : DoneAction :=
  { text := jsOr d.text ""
    action := jsOr d.action "save_service_call"
    target_script_id :=
      match d.target_script_id with
      | some t => if t = "" then none else some t
      | none => none }

/-- The first_step resolution of flowToScript: the target of the first edge
sourced at the start node id, else the id of the first step node, else the
empty string. -/
def firstStepOf (nodes : List Node) (edges : List Edge) : String :=
  jsOr (optStr ((edges.find? fun e => e.source == "__start__").map Edge.target))
    (jsOr (optStr ((stepNodesOf nodes).head?.map Node.id)) "")

/-- The step ids of the previous canonical script, in array order. -/
def originalOrderOf (originalScript : Option Script) : List String :=
  ((originalScript.map Script.steps).getD []).map Step.id

/-- The sorted step nodes of flowToScript: previous canonical order first,
vertical position as tie-break for new nodes. -/
def sortedStepsOf (nodes : List Node) (originalScript : Option Script) : List Node :=
  jsSortBy (stepCmp (originalOrderOf originalScript)) (stepNodesOf nodes)

/-- The graph-to-canonical compiler flowToScript(nodes, edges,
originalScript), with the Date.now() clock read as an explicit now
argument. -/
def flowToScript (nodes : List Node) (edges : List Edge)
    (originalScript : Option Script) (now : Nat) : Script :=
  let startNode := findStartNode nodes
  let m := buildMaps edges
  { script_id :=
      (jsOr (optStr (originalScript.map Script.script_id)) ("flow_" ++ toString now))
    name :=
      (jsOr (jsOr (optStr (startNode.map fun n => n.data.name))
        (optStr (originalScript.map Script.name))) ("תסריט " ++ toString now))
    bot_instructions := jsOr (optStr (startNode.map fun n => n.data.bot_instructions)) ""
    greeting_known := jsOr (optStr (startNode.map fun n => n.data.greeting_known)) ""
    greeting_unknown := jsOr (optStr (startNode.map fun n => n.data.greeting_unknown)) ""
    first_step := firstStepOf nodes edges
    steps := (sortedStepsOf nodes originalScript).map (compileNode m)
    done_actions := (doneNodesOf nodes).map fun n => (n.id, compileDone n.data)
    active := some ((originalScript.bind Script.active).getD true)
    flow_positions := nodes.filterMap fun n => n.position.map fun p => (n.id, p) }

/-- Association-list lookup modelling savedPos[id] reads of the
_flow_positions object. -/
def lookupPos (ps : List (String × Pos)) (k : String) : Option Pos :=
  (ps.find? fun p => p.1 == k).map Prod.snd

/-- Node type tag scriptToFlow assigns to each step variant. -/
def nodeTypeOf : Step → String
  | .buttons .. => "buttonsNode"
  | .action .. => "actionNode"
  | .text_input .. => "stepNode"

/-- Node data payload scriptToFlow spreads from a step ({...step}); only
the fields the compiler ever reads back are modelled. -/
def stepNodeData : Step → NodeData
  | .text_input _ text save_to _ sk => { text := text, save_to := save_to, skip_if := sk }
  | .buttons _ text bs sk => { text := text, buttons := bs, skip_if := sk }
  | .action _ at_ fi de os of sk =>
      { action_type := at_, field := fi, description := de,
        on_success := os, on_failure := of, skip_if := sk }

/-- The labeled option edges scriptToFlow emits for a buttons step: one per
option with a populated next_step, on handle btn-i, labeled with the option
title. -/
def btnEdges (sid : String) (bs : List BtnOption) : List Edge :=
  bs.enum.filterMap fun p =>
    if p.2.next_step = "" then none
    else some
      { id := sid ++ "-btn" ++ toString p.1 ++ "->" ++ p.2.next_step
        source := sid
        sourceHandle := some ("btn-" ++ toString p.1)
        target := p.2.next_step
        label := some p.2.title }

/-- The edges scriptToFlow emits for one step, in emission order: the
variant-specific edges (labeled option edges; green success and red failure
edges when populated; the plain next edge when populated) followed by the
dashed orange skip edge when a skip_if with a populated goto is present.
The skip edge carries no sourceHandle, exactly as in the source. -/
def stepEdges (step : Step) : List Edge :=
  (match step with
   | .buttons sid _ bs _ => btnEdges sid bs
   | .action sid _ _ _ os of _ =>
       (if os = "" then [] else
         [{ id := sid ++ "-success->" ++ os, source := sid,
            sourceHandle := some "success", target := os,
            label := some "✓ הצלחה", stroke := some "#48BB78" }]) ++
       (if of = "" then [] else
         [{ id := sid ++ "-failure->" ++ of, source := sid,
            sourceHandle := some "failure", target := of,
            label := some "✕ כישלון", stroke := some "#FC8181" }])
   | .text_input sid _ _ ns _ =>
       if ns = "" then [] else
         [{ id := sid ++ "->" ++ ns, source := sid, sourceHandle := none,
            target := ns }]) ++
  (match step.skipIf with
   | some sk =>
       if sk.goto = "" then [] else
         [{ id := step.id ++ "-skip->" ++ sk.goto, source := step.id,
            sourceHandle := none, target := sk.goto,
            label := some ("דלג אם " ++ sk.field),
            stroke := some "#ED8936", strokeDasharray := some "5,5" }]
   | none => [])

/-- Vertical spacing bump the decompiler adds after a buttons step:
30 times (option count - 1), clamped at zero. -/
def stepYBump : Step → Int
  | .buttons _ _ bs _ => 30 * (max ((bs.length : Int) - 1) 0)
  | _ => 0

/-- The node scriptToFlow pushes for one step: saved position when
available, else the centered fallback at the running y. -/
def mkStepNode (sp : List (String × Pos)) (y : Int) (st : Step) : Node :=
  { id := st.id, ntype := nodeTypeOf st,
    position := some ((lookupPos sp st.id).getD { x := 270, y := y }),
    data := stepNodeData st }

/-- The steps.forEach loop of scriptToFlow: emits one node and the step
edges per step, threading the running y coordinate, and returns the final y
(used to place the done nodes). -/
def stepsToFlow (sp : List (String × Pos)) (y : Int) :
    List Step → List Node × List Edge × Int
  | [] => ([], [], y)
  | st :: rest =>
    let out := stepsToFlow sp (y + stepYBump st + 160) rest
    (mkStepNode sp y st :: out.1, stepEdges st ++ out.2.1, out.2.2)

/-- The canonical-to-graph decompiler scriptToFlow(script): one synthetic
start node, one edge from it to a populated first_step, one node per step
with its regenerated edges, and the done nodes spread horizontally below
the last step (or at their saved positions). -/
def scriptToFlow (script : Script) : List Node × List Edge :=
  let sp := script.flow_positions
  let startN : Node :=
    { id := "__start__", ntype := "startNode",
      position := some ((lookupPos sp "__start__").getD { x := 270, y := 50 }),
      data := { name := jsOr script.name "",
                bot_instructions := jsOr script.bot_instructions "",
                greeting_known := jsOr script.greeting_known "",
                greeting_unknown := jsOr script.greeting_unknown "" } }
  let startEdges : List Edge :=
    if script.first_step = "" then [] else
      [{ id := "__start__->" ++ script.first_step, source := "__start__",
         sourceHandle := none, target := script.first_step }]
  let out := stepsToFlow sp 210 script.steps
  let n : Int := script.done_actions.length
  let doneStartX : Int := 400 - ((n - 1) * 300) / 2 - 130
  let doneNs : List Node := script.done_actions.enum.map fun p =>
    { id := p.2.1, ntype := "doneNode",
      position := (some ((lookupPos sp p.2.1).getD
        { x := doneStartX + (p.1 : Int) * 300, y := out.2.2 })),
      data := { text := p.2.2.text, action := p.2.2.action,
                target_script_id := p.2.2.target_script_id } }
  (startN :: out.1 ++ doneNs, startEdges ++ out.2.1)

/-- The round trip at the heart of the spec: decompile a canonical script
to a graph and recompile it with the same script as previousCanonical. -/
def roundTrip (s : Script) (now : Nat) : Script :=
  flowToScript (scriptToFlow s).1 (scriptToFlow s).2 (some s) now

/-- The editor deleteNode handler: drops the node with the given id and
every edge whose source or target is that id. -/
def deleteNode (id : String) (nodes : List Node) (edges : List Edge) :
    List Node × List Edge :=
  (nodes.filter fun n => n.id != id,
   edges.filter fun e => e.source != id && e.target != id)

/-! ### Basic facts about the JS string helpers -/

/-- JS disjunction of a nonempty string keeps the left operand. -/
theorem jsOr_ne {a : String} (b : String) (h : a ≠ "") : jsOr a b = a := by
  simp [jsOr, h]

/-- JS disjunction with an empty left operand yields the right operand. -/
@[simp] theorem jsOr_empty_left (b : String) : jsOr "" b = b := rfl

/-- JS disjunction with an empty right operand is the identity. -/
@[simp] theorem jsOr_empty_right (a : String) : jsOr a "" = a := by
  by_cases h : a = "" <;> simp [jsOr, h]

/-- A btn-i handle starts with btn-, for every index. -/
theorem jsStartsWith_btn (i : Nat) : jsStartsWith ("btn-" ++ toString i) "btn-" = true := by
  simp only [jsStartsWith, String.data_append, List.isPrefixOf_iff_prefix]
  exact List.prefix_append _ _

/-! ### Characterising the edge maps built by the classification loop -/

/-- Source handles routed to the single-exit map: no handle at all, or a
handle that is neither a btn- option handle nor a check branch handle. -/
def isSimpleHandle : Option String → Bool
  | none => true
  | some h => !(jsStartsWith h "btn-") && !(h == "success") && !(h == "failure")

/-- The edges that write the single-exit entry of a given source id. -/
def simpleP (s : String) (e : Edge) : Bool :=
  e.source == s && isSimpleHandle e.sourceHandle

/-- The edges that carry exactly a given source id and source handle. -/
def handleP (s h : String) (e : Edge) : Bool :=
  e.source == s && e.sourceHandle == some h

theorem recordEdge_simpleNext (m : EdgeMaps) (e : Edge) (s : String)
    (hs : s ≠ "__start__") :
    (recordEdge m e).simpleNext s =
      if simpleP s e then some e.target else m.simpleNext s := by
  by_cases h0 : e.source = "__start__"
  · have hns : simpleP s e = false := by
      simp only [simpleP, Bool.and_eq_false_iff, beq_eq_false_iff_ne]
      exact Or.inl (fun h => hs (h ▸ h0))
    rw [hns]
    simp [recordEdge, h0]
  · rcases he : e.sourceHandle with _ | h
    · simp only [recordEdge, if_neg h0, he, simpleP, isSimpleHandle, Bool.and_true]
      show (if s = e.source then some e.target else m.simpleNext s) = _
      by_cases h1 : s = e.source
      · rw [if_pos h1, if_pos (by simp [h1])]
      · rw [if_neg h1, if_neg (by simp only [beq_iff_eq]; exact fun h => h1 h.symm)]
    · by_cases hb : jsStartsWith h "btn-"
      · have hns : simpleP s e = false := by
          simp [simpleP, he, isSimpleHandle, hb]
        rw [hns]
        simp only [recordEdge, if_neg h0, he]
        rw [if_pos hb]
        simp
      · by_cases hsucc : h = "success"
        · have hns : simpleP s e = false := by
            simp [simpleP, he, isSimpleHandle, hsucc]
          rw [hns]
          simp only [recordEdge, if_neg h0, he]
          rw [if_neg hb, if_pos (Or.inl hsucc : h = "success" ∨ h = "failure")]
          simp
        · by_cases hfail : h = "failure"
          · have hns : simpleP s e = false := by
              simp [simpleP, he, isSimpleHandle, hfail]
            rw [hns]
            simp only [recordEdge, if_neg h0, he]
            rw [if_neg hb, if_pos (Or.inr hfail : h = "success" ∨ h = "failure")]
            simp
          · have hsp : isSimpleHandle (some h) = true := by
              simp [isSimpleHandle, hb, hsucc, hfail]
            simp only [recordEdge, if_neg h0, he, simpleP, hsp, Bool.and_true]
            rw [if_neg hb, if_neg (by rintro (h1 | h1); exacts [hsucc h1, hfail h1])]
            show (if s = e.source then some e.target else m.simpleNext s) = _
            by_cases h1 : s = e.source
            · rw [if_pos h1, if_pos (by simp [h1])]
            · rw [if_neg h1, if_neg (by simp only [beq_iff_eq]; exact fun h => h1 h.symm)]

theorem recordEdge_buttonNext (m : EdgeMaps) (e : Edge) (s h : String)
    (hs : s ≠ "__start__") (hh : jsStartsWith h "btn-" = true) :
    (recordEdge m e).buttonNext s h =
      if handleP s h e then some e.target else m.buttonNext s h := by
  by_cases h0 : e.source = "__start__"
  · have hns : handleP s h e = false := by
      simp only [handleP, Bool.and_eq_false_iff, beq_eq_false_iff_ne]
      exact Or.inl (fun h1 => hs (h1 ▸ h0))
    rw [hns]
    simp [recordEdge, h0]
  · rcases he : e.sourceHandle with _ | h'
    · have hns : handleP s h e = false := by simp [handleP, he]
      rw [hns]
      simp [recordEdge, h0, he]
    · by_cases hb : jsStartsWith h' "btn-"
      · simp only [recordEdge, if_neg h0, he]
        rw [if_pos hb]
        show (if s = e.source ∧ h = h' then some e.target else m.buttonNext s h) = _
        by_cases h1 : s = e.source ∧ h = h'
        · rw [if_pos h1, if_pos (by simp [handleP, he, h1.1, h1.2])]
        · rw [if_neg h1, if_neg (by
            simp only [handleP, he, Bool.and_eq_true, beq_iff_eq, Option.some.injEq]
            rintro ⟨a, b⟩
            exact h1 ⟨a.symm, b.symm⟩)]
      · have hns : handleP s h e = false := by
          simp only [handleP, he, Bool.and_eq_false_iff, beq_eq_false_iff_ne]
          refine Or.inr (fun h2 => hb ?_)
          rw [Option.some_inj.mp h2]
          exact hh
        rw [hns]
        simp only [recordEdge, if_neg h0, he]
        rw [if_neg hb]
        by_cases hsf : h' = "success" ∨ h' = "failure"
        · rw [if_pos hsf]
          simp
        · rw [if_neg hsf]
          simp

theorem recordEdge_actionNext (m : EdgeMaps) (e : Edge) (s h : String)
    (hs : s ≠ "__start__") (hh : h = "success" ∨ h = "failure") :
    (recordEdge m e).actionNext s h =
      if handleP s h e then some e.target else m.actionNext s h := by
  have hhb : jsStartsWith h "btn-" = false := by
    rcases hh with h1 | h1 <;> subst h1 <;> decide
  by_cases h0 : e.source = "__start__"
  · have hns : handleP s h e = false := by
      simp only [handleP, Bool.and_eq_false_iff, beq_eq_false_iff_ne]
      exact Or.inl (fun h1 => hs (h1 ▸ h0))
    rw [hns]
    simp [recordEdge, h0]
  · rcases he : e.sourceHandle with _ | h'
    · have hns : handleP s h e = false := by simp [handleP, he]
      rw [hns]
      simp [recordEdge, h0, he]
    · by_cases hb : jsStartsWith h' "btn-"
      · have hns : handleP s h e = false := by
          simp only [handleP, he, Bool.and_eq_false_iff, beq_eq_false_iff_ne]
          refine Or.inr (fun h2 => ?_)
          rw [Option.some_inj.mp h2] at hb
          simp [hb] at hhb
        rw [hns]
        simp only [recordEdge, if_neg h0, he]
        rw [if_pos hb]
        simp
      · by_cases hsf : h' = "success" ∨ h' = "failure"
        · simp only [recordEdge, if_neg h0, he]
          rw [if_neg hb, if_pos hsf]
          show (if s = e.source ∧ h = h' then some e.target else m.actionNext s h) = _
          by_cases h1 : s = e.source ∧ h = h'
          · rw [if_pos h1, if_pos (by simp [handleP, he, h1.1, h1.2])]
          · rw [if_neg h1, if_neg (by
              simp only [handleP, he, Bool.and_eq_true, beq_iff_eq, Option.some.injEq]
              rintro ⟨a, b⟩
              exact h1 ⟨a.symm, b.symm⟩)]
        · have hns : handleP s h e = false := by
            simp only [handleP, he, Bool.and_eq_false_iff, beq_eq_false_iff_ne]
            refine Or.inr (fun h2 => hsf ?_)
            rw [Option.some_inj.mp h2]
            exact hh
          rw [hns]
          simp only [recordEdge, if_neg h0, he]
          rw [if_neg hb, if_neg hsf]
          simp

theorem foldl_simpleNext (es : List Edge) (m : EdgeMaps) (s : String)
    (hs : s ≠ "__start__") :
    (es.foldl recordEdge m).simpleNext s =
      ((es.reverse.find? (simpleP s)).map Edge.target).or (m.simpleNext s) := by
  induction es generalizing m with
  | nil => simp
  | cons e es ih =>
    rw [List.foldl_cons, ih (recordEdge m e), recordEdge_simpleNext m e s hs,
      List.reverse_cons, List.find?_append, Option.map_or', Option.or_assoc]
    congr 1
    by_cases hp : simpleP s e
    · simp [List.find?_cons_of_pos _ hp, hp]
    · simp [List.find?_cons_of_neg _ hp, hp]

theorem foldl_buttonNext (es : List Edge) (m : EdgeMaps) (s h : String)
    (hs : s ≠ "__start__") (hh : jsStartsWith h "btn-" = true) :
    (es.foldl recordEdge m).buttonNext s h =
      ((es.reverse.find? (handleP s h)).map Edge.target).or (m.buttonNext s h) := by
  induction es generalizing m with
  | nil => simp
  | cons e es ih =>
    rw [List.foldl_cons, ih (recordEdge m e), recordEdge_buttonNext m e s h hs hh,
      List.reverse_cons, List.find?_append, Option.map_or', Option.or_assoc]
    congr 1
    by_cases hp : handleP s h e
    · simp [List.find?_cons_of_pos _ hp, hp]
    · simp [List.find?_cons_of_neg _ hp, hp]

theorem foldl_actionNext (es : List Edge) (m : EdgeMaps) (s h : String)
    (hs : s ≠ "__start__") (hh : h = "success" ∨ h = "failure") :
    (es.foldl recordEdge m).actionNext s h =
      ((es.reverse.find? (handleP s h)).map Edge.target).or (m.actionNext s h) := by
  induction es generalizing m with
  | nil => simp
  | cons e es ih =>
    rw [List.foldl_cons, ih (recordEdge m e), recordEdge_actionNext m e s h hs hh,
      List.reverse_cons, List.find?_append, Option.map_or', Option.or_assoc]
    congr 1
    by_cases hp : handleP s h e
    · simp [List.find?_cons_of_pos _ hp, hp]
    · simp [List.find?_cons_of_neg _ hp, hp]

theorem buildMaps_simpleNext (edges : List Edge) (s : String) (hs : s ≠ "__start__") :
    (buildMaps edges).simpleNext s = (edges.reverse.find? (simpleP s)).map Edge.target := by
  rw [buildMaps, foldl_simpleNext edges _ s hs]
  exact Option.or_none

theorem buildMaps_buttonNext (edges : List Edge) (s h : String)
    (hs : s ≠ "__start__") (hh : jsStartsWith h "btn-" = true) :
    (buildMaps edges).buttonNext s h = (edges.reverse.find? (handleP s h)).map Edge.target := by
  rw [buildMaps, foldl_buttonNext edges _ s h hs hh]
  exact Option.or_none

theorem buildMaps_actionNext (edges : List Edge) (s h : String)
    (hs : s ≠ "__start__") (hh : h = "success" ∨ h = "failure") :
    (buildMaps edges).actionNext s h = (edges.reverse.find? (handleP s h)).map Edge.target := by
  rw [buildMaps, foldl_actionNext edges _ s h hs hh]
  exact Option.or_none

theorem find?_eq_head?_filter {α : Type} (p : α → Bool) : ∀ l : List α,
    l.find? p = (l.filter p).head?
  | [] => rfl
  | a :: l => by
    by_cases hp : p a
    · rw [List.find?_cons_of_pos _ hp, List.filter_cons_of_pos hp, List.head?_cons]
    · rw [List.find?_cons_of_neg _ hp, List.filter_cons_of_neg hp]
      exact find?_eq_head?_filter p l

theorem reverse_find?_of_filter_single {α : Type} {p : α → Bool} {l : List α} {a : α}
    (h : l.filter p = [a]) : l.reverse.find? p = some a := by
  rw [find?_eq_head?_filter, List.filter_reverse, h]
  rfl

theorem reverse_find?_of_filter_nil {α : Type} {p : α → Bool} {l : List α}
    (h : l.filter p = []) : l.reverse.find? p = none := by
  rw [find?_eq_head?_filter, List.filter_reverse, h]
  rfl

theorem mem_jsInsert {cmp : Node → Node → Int} {a x : Node} : ∀ {l : List Node},
    x ∈ jsInsert cmp a l ↔ x = a ∨ x ∈ l := by
  intro l
  induction l with
  | nil => simp [jsInsert]
  | cons b l ih =>
    by_cases h : 0 < cmp a b
    · simp only [jsInsert, if_pos h, List.mem_cons, ih]
      tauto
    · simp only [jsInsert, if_neg h, List.mem_cons]

theorem mem_jsSortBy {cmp : Node → Node → Int} {x : Node} : ∀ {l : List Node},
    x ∈ jsSortBy cmp l ↔ x ∈ l := by
  intro l
  induction l with
  | nil => simp [jsSortBy]
  | cons a l ih =>
    simp only [jsSortBy, mem_jsInsert, ih, List.mem_cons]

theorem compileNode_mem_steps (nodes : List Node) (edges : List Edge)
    (orig : Option Script) (now : Nat) (n : Node)
    (hn : n ∈ nodes) (ht : isStepNodeType n.ntype = true) :
    compileNode (buildMaps edges) n ∈ (flowToScript nodes edges orig now).steps := by
  have h1 : n ∈ stepNodesOf nodes := List.mem_filter.mpr ⟨hn, ht⟩
  have h2 : n ∈ sortedStepsOf nodes orig := mem_jsSortBy.mpr h1
  exact List.mem_map_of_mem _ h2

theorem compileNode_buttons (m : EdgeMaps) (n : Node) (ht : n.ntype = "buttonsNode") :
    compileNode m n = .buttons n.id (jsOr n.data.text "")
      (n.data.buttons.enum.map fun p =>
        { p.2 with next_step := (jsOr
            (jsOr (optStr (m.buttonNext n.id ("btn-" ++ toString p.1)))
              p.2.next_step) "") })
      none := by
  simp [compileNode, ht]

theorem compileNode_action (m : EdgeMaps) (n : Node) (ht : n.ntype = "actionNode") :
    compileNode m n = .action n.id (jsOr n.data.action_type "check_equipment")
      (jsOr n.data.field "") (jsOr n.data.description "")
      (jsOr (jsOr (optStr (m.actionNext n.id "success")) n.data.on_success) "")
      (jsOr (jsOr (optStr (m.actionNext n.id "failure")) n.data.on_failure) "")
      none := by
  simp [compileNode, ht]

theorem compileNode_text (m : EdgeMaps) (n : Node) (ht : n.ntype = "stepNode") :
    compileNode m n = .text_input n.id (jsOr n.data.text "") (jsOr n.data.save_to "")
      (jsOr (optStr (m.simpleNext n.id)) "") n.data.skip_if := by
  simp [compileNode, ht]

theorem compileNode_optionAt (m : EdgeMaps) (n : Node) (ht : n.ntype = "buttonsNode")
    (i : Nat) :
    (compileNode m n).optionAt i = (n.data.buttons[i]?).map fun btn =>
      { btn with next_step := (jsOr
          (jsOr (optStr (m.buttonNext n.id ("btn-" ++ toString i)))
            btn.next_step) "") } := by
  rw [compileNode_buttons m n ht]
  simp only [Step.optionAt, List.getElem?_map, List.enum_eq_enumFrom,
    List.getElem?_enumFrom, Nat.zero_add]
  cases h : n.data.buttons[i]? <;> simp [h]

/-! ### Concrete graphs and scripts used as inputs below -/

/-- A bare start node, as the editor creates it. -/
def startNode0 : Node := { id := "__start__", ntype := "startNode" }

/-- A bare text_input step node with id S1. -/
def stepNode0 : Node := { id := "S1", ntype := "stepNode" }

/-- A valid canonical script (nonempty id and name, existing first step, no
dangling references: S2 and S3 are terminal ids) whose single text_input
step carries both a populated next_step and a skip condition jumping
elsewhere. -/
def c1Script : Script :=
  { script_id := "S", name := "N", bot_instructions := "", greeting_known := "",
    greeting_unknown := "", first_step := "S1",
    steps := [.text_input "S1" "ask" "" "S2"
      (some { field := "device_number", goto := "S3" })],
    done_actions := [("S2", { text := "a", action := "save_service_call" }),
                     ("S3", { text := "b", action := "save_service_call" })],
    active := some true, flow_positions := [] }

/-- C1 (code bug): the round-trip law fails on the code. For the valid
canonical script c1Script, whose step S1 has next_step S2 and skip_if goto
S3, compiling the decompiled graph with c1Script as previousCanonical
rewrites next_step of S1 to S3: the decompiler emits the skip edge without
a sourceHandle, so the compiler records it in the single-exit map on top of
the real next edge.  The spec says every semantic field, next_step and
skip_if included, survives the round trip. -/
theorem roundtrip_fails_on_skip_c1 :
    c1Script.steps = [.text_input "S1" "ask" "" "S2"
      (some { field := "device_number", goto := "S3" })] ∧
    (roundTrip c1Script 0).steps = [.text_input "S1" "ask" "" "S3"
      (some { field := "device_number", goto := "S3" })] ∧
    roundTrip c1Script 0 ≠ c1Script := by decide

/-- C3 (counterexample): compiling a graph with zero start nodes does not
return a structural error and no Script: it returns this fully formed
Script value. -/
theorem no_start_still_compiles_c3 :
    flowToScript [] [] none 0 =
      { script_id := "flow_0", name := "תסריט 0", bot_instructions := "",
        greeting_known := "", greeting_unknown := "", first_step := "",
        steps := [], done_actions := [], active := some true,
        flow_positions := [] } := by decide

/-- C3 (amended): compilation never fails on a graph with zero start
nodes; flowToScript totally returns a Script whose start-derived fields
are empty and whose name falls back to the previous canonical name or the
clock-based default. -/
theorem missing_start_no_error_c3 (nodes : List Node) (edges : List Edge)
    (orig : Option Script) (now : Nat)
    (h : ∀ n ∈ nodes, n.ntype ≠ "startNode") :
    (flowToScript nodes edges orig now).bot_instructions = "" ∧
    (flowToScript nodes edges orig now).greeting_known = "" ∧
    (flowToScript nodes edges orig now).greeting_unknown = "" ∧
    (flowToScript nodes edges orig now).name =
      jsOr (optStr (orig.map Script.name)) ("תסריט " ++ toString now) := by
  have hf : findStartNode nodes = none := by
    rw [findStartNode, List.find?_eq_none]
    intro n hn
    simp only [beq_iff_eq]
    exact h n hn
  refine ⟨?_, ?_, ?_, ?_⟩
  · show jsOr (optStr ((findStartNode nodes).map fun n => n.data.bot_instructions)) "" = ""
    rw [hf]
    rfl
  · show jsOr (optStr ((findStartNode nodes).map fun n => n.data.greeting_known)) "" = ""
    rw [hf]
    rfl
  · show jsOr (optStr ((findStartNode nodes).map fun n => n.data.greeting_unknown)) "" = ""
    rw [hf]
    rfl
  · show jsOr (jsOr (optStr ((findStartNode nodes).map fun n => n.data.name))
      (optStr (orig.map Script.name))) ("תסריט " ++ toString now) = _
    rw [hf]
    rfl

/-- C3 (witness): the amended statement at the empty graph. -/
theorem missing_start_no_error_c3_witness :
    (flowToScript [] [] none 0).bot_instructions = "" ∧
    (flowToScript [] [] none 0).greeting_known = "" ∧
    (flowToScript [] [] none 0).greeting_unknown = "" ∧
    (flowToScript [] [] none 0).name =
      jsOr (optStr ((none : Option Script).map Script.name)) ("תסריט " ++ toString 0) :=
  missing_start_no_error_c3 [] [] none 0 (by intro n hn; cases hn)

/-- C4 (counterexample): with a start node that has no outgoing edge and
one step node S1, compilation does not fail; it silently sets first_step to
S1. -/
theorem first_step_silent_fallback_c4 :
    (flowToScript [startNode0, stepNode0] [] none 0).first_step = "S1" := by decide

/-- C4 (amended): first_step is the target of the first edge sourced at the
synthetic start id whenever that edge exists and its target is nonempty;
when no such edge exists compilation does not fail but falls back to the
first step node id, or the empty string when there is none. -/
theorem first_step_resolution_c4 (nodes : List Node) (edges : List Edge)
    (orig : Option Script) (now : Nat) :
    ((flowToScript nodes edges orig now).first_step =
      jsOr (optStr ((edges.find? fun e => e.source == "__start__").map Edge.target))
        (jsOr (optStr ((stepNodesOf nodes).head?.map Node.id)) "")) ∧
    (∀ e : Edge, (edges.find? fun e => e.source == "__start__") = some e →
      e.target ≠ "" →
      (flowToScript nodes edges orig now).first_step = e.target) ∧
    ((edges.find? fun e => e.source == "__start__") = none →
      (flowToScript nodes edges orig now).first_step =
        jsOr (optStr ((stepNodesOf nodes).head?.map Node.id)) "") := by
  refine ⟨rfl, ?_, ?_⟩
  · intro e he ht
    show firstStepOf nodes edges = e.target
    rw [firstStepOf, he]
    exact jsOr_ne _ ht
  · intro he
    show firstStepOf nodes edges = _
    rw [firstStepOf, he]
    rfl

/-- C4 (witness): the amended statement at a concrete graph with no start
edge and one step node. -/
theorem first_step_resolution_c4_witness :
    (flowToScript [startNode0, stepNode0] [] none 0).first_step =
      jsOr (optStr ((stepNodesOf [startNode0, stepNode0]).head?.map Node.id)) "" :=
  (first_step_resolution_c4 [startNode0, stepNode0] [] none 0).2.2 (by decide)

/-- C7 (counterexample): flowToScript is not a pure function of (nodes,
edges, previousCanonical) alone: with previousCanonical absent the
generated script_id embeds the Date.now() clock value, so two invocations
at different times return different Scripts. -/
theorem clock_dependence_c7 :
    flowToScript [] [] none 0 ≠ flowToScript [] [] none 1 := by decide

/-- C7 (amended): flowToScript is deterministic given the clock, and
time-independent (hence pure in the claimed sense) whenever the previous
canonical script supplies a nonempty script_id and a name is available from
the start node or the previous canonical script; only the clock-based
fallbacks for script_id and name break input-purity. -/
theorem compiler_determinism_c7 (nodes : List Node) (edges : List Edge)
    (s : Script) (t1 t2 : Nat) (hid : s.script_id ≠ "")
    (hname : jsOr (optStr ((findStartNode nodes).map fun n => n.data.name))
      s.name ≠ "") :
    flowToScript nodes edges (some s) t1 = flowToScript nodes edges (some s) t2 := by
  simp only [flowToScript]
  congr 1
  · exact (jsOr_ne _ hid).trans (jsOr_ne _ hid).symm
  · exact (jsOr_ne _ hname).trans (jsOr_ne _ hname).symm

/-- A start node carrying a name, for the determinism witness. -/
def namedStart : Node :=
  { id := "__start__", ntype := "startNode", data := { name := "N" } }

/-- A minimal previous canonical script with a nonempty script_id. -/
def prevScript : Script :=
  { script_id := "S", name := "", bot_instructions := "", greeting_known := "",
    greeting_unknown := "", first_step := "", steps := [], done_actions := [],
    active := some true, flow_positions := [] }

/-- C7 (witness): determinism at a concrete graph and two distinct clock
values. -/
theorem compiler_determinism_c7_witness :
    flowToScript [namedStart] [] (some prevScript) 0 =
      flowToScript [namedStart] [] (some prevScript) 5 :=
  compiler_determinism_c7 [namedStart] [] prevScript 0 5 (by decide) (by decide)

/-- C9: deleteNode removes exactly the node with the given id and exactly
the edges incident to it: no surviving edge touches the id, a node survives
iff it is an original node with a different id, an edge survives iff it is
an original edge not incident to the id, and the survivors keep their
original relative order (sublists of the originals). -/
theorem delete_node_c9 (id : String) (nodes : List Node) (edges : List Edge) :
    (∀ e ∈ (deleteNode id nodes edges).2, e.source ≠ id ∧ e.target ≠ id) ∧
    (∀ n : Node, n ∈ (deleteNode id nodes edges).1 ↔ n ∈ nodes ∧ n.id ≠ id) ∧
    (∀ e : Edge, e ∈ (deleteNode id nodes edges).2 ↔
      e ∈ edges ∧ e.source ≠ id ∧ e.target ≠ id) ∧
    (deleteNode id nodes edges).1.Sublist nodes ∧
    (deleteNode id nodes edges).2.Sublist edges := by
  simp only [deleteNode]
  refine ⟨?_, ?_, ?_, List.filter_sublist _, List.filter_sublist _⟩
  · intro e he
    have h2 := (List.mem_filter.mp he).2
    simp only [Bool.and_eq_true, bne_iff_ne] at h2
    exact h2
  · intro n
    simp [List.mem_filter]
  · intro e
    simp [List.mem_filter, and_assoc]

/-- C10: the compiled script's active flag is exactly the previous
canonical active value when one is present (false included), and true when
previousCanonical is absent or carries no active value; compilation never
toggles it on its own. -/
theorem active_preserved_c10 (nodes : List Node) (edges : List Edge)
    (orig : Option Script) (now : Nat) :
    (flowToScript nodes edges orig now).active =
      some ((orig.bind Script.active).getD true) := rfl

/-- C2: compiling a graph in which a choice node with three options has
exactly one outgoing edge on each of its three option handles (btn-0,
btn-1, btn-2) yields a buttons step whose i-th option next_step is exactly
the i-th edge target. -/
theorem choice_fanout_c2 (nodes : List Node) (edges : List Edge)
    (orig : Option Script) (now : Nat) (n : Node) (b0 b1 b2 : BtnOption)
    (e0 e1 e2 : Edge)
    (hn : n ∈ nodes) (ht : n.ntype = "buttonsNode") (hid : n.id ≠ "__start__")
    (hb : n.data.buttons = [b0, b1, b2])
    (h0 : edges.filter (handleP n.id "btn-0") = [e0]) (t0 : e0.target ≠ "")
    (h1 : edges.filter (handleP n.id "btn-1") = [e1]) (t1 : e1.target ≠ "")
    (h2 : edges.filter (handleP n.id "btn-2") = [e2]) (t2 : e2.target ≠ "") :
    ∃ st ∈ (flowToScript nodes edges orig now).steps,
      st.id = n.id ∧
      st.optionAt 0 = some { b0 with next_step := e0.target } ∧
      st.optionAt 1 = some { b1 with next_step := e1.target } ∧
      st.optionAt 2 = some { b2 with next_step := e2.target } := by
  refine ⟨compileNode (buildMaps edges) n,
    compileNode_mem_steps nodes edges orig now n hn (by rw [isStepNodeType, ht]; decide),
    ?_, ?_, ?_, ?_⟩
  · rw [compileNode_buttons _ n ht]
    rfl
  · rw [compileNode_optionAt _ n ht 0, hb]
    have hh : ("btn-" ++ toString (0 : Nat)) = "btn-0" := by decide
    have hl : (buildMaps edges).buttonNext n.id ("btn-" ++ toString (0 : Nat)) =
        some e0.target := by
      rw [hh, buildMaps_buttonNext edges n.id "btn-0" hid (by decide),
        reverse_find?_of_filter_single h0]
      rfl
    rw [List.getElem?_cons_zero, Option.map_some', hl]
    show some { b0 with next_step := jsOr (jsOr e0.target b0.next_step) "" } = _
    rw [jsOr_ne b0.next_step t0, jsOr_empty_right]
  · rw [compileNode_optionAt _ n ht 1, hb]
    have hh : ("btn-" ++ toString (1 : Nat)) = "btn-1" := by decide
    have hl : (buildMaps edges).buttonNext n.id ("btn-" ++ toString (1 : Nat)) =
        some e1.target := by
      rw [hh, buildMaps_buttonNext edges n.id "btn-1" hid (by decide),
        reverse_find?_of_filter_single h1]
      rfl
    rw [show ([b0, b1, b2][1]? : Option BtnOption) = some b1 from rfl,
      Option.map_some', hl]
    show some { b1 with next_step := jsOr (jsOr e1.target b1.next_step) "" } = _
    rw [jsOr_ne b1.next_step t1, jsOr_empty_right]
  · rw [compileNode_optionAt _ n ht 2, hb]
    have hh : ("btn-" ++ toString (2 : Nat)) = "btn-2" := by decide
    have hl : (buildMaps edges).buttonNext n.id ("btn-" ++ toString (2 : Nat)) =
        some e2.target := by
      rw [hh, buildMaps_buttonNext edges n.id "btn-2" hid (by decide),
        reverse_find?_of_filter_single h2]
      rfl
    rw [show ([b0, b1, b2][2]? : Option BtnOption) = some b2 from rfl,
      Option.map_some', hl]
    show some { b2 with next_step := jsOr (jsOr e2.target b2.next_step) "" } = _
    rw [jsOr_ne b2.next_step t2, jsOr_empty_right]

/-- C5 (counterexample): a check node whose stored data still holds
on_failure S9, with a success-handled edge and no failure-handled edge,
compiles to on_failure S9, not to the empty string the claim requires. -/
def staleCheckNode : Node :=
  { id := "A", ntype := "actionNode",
    data := { action_type := "check_equipment", field := "device_number",
              on_success := "", on_failure := "S9" } }

/-- The success edge used together with staleCheckNode. -/
def staleSuccessEdge : Edge :=
  { id := "es", source := "A", sourceHandle := some "success", target := "S2" }

/-- C5 (counterexample): see staleCheckNode; the compiled action step keeps
the stale on_failure value S9 even though no failure edge exists. -/
theorem check_fanout_stale_c5 :
    (flowToScript [staleCheckNode] [staleSuccessEdge] none 0).steps =
      [.action "A" "check_equipment" "device_number" "" "S2" "S9" none] := by decide

/-- C5 (amended): a check node with exactly one success-handled edge and no
failure-handled edge compiles to on_success = that edge target, while
on_failure keeps the value already held in the node data (empty string when
none was held), and symmetrically with the roles of success and failure
swapped. -/
theorem check_fanout_c5 (nodes : List Node) (edges : List Edge)
    (orig : Option Script) (now : Nat) (n : Node) (es ef : Edge)
    (hn : n ∈ nodes) (ht : n.ntype = "actionNode") (hid : n.id ≠ "__start__") :
    (edges.filter (handleP n.id "success") = [es] → es.target ≠ "" →
      edges.filter (handleP n.id "failure") = [] →
      Step.action n.id (jsOr n.data.action_type "check_equipment")
        (jsOr n.data.field "") (jsOr n.data.description "")
        es.target (jsOr n.data.on_failure "") none
        ∈ (flowToScript nodes edges orig now).steps) ∧
    (edges.filter (handleP n.id "failure") = [ef] → ef.target ≠ "" →
      edges.filter (handleP n.id "success") = [] →
      Step.action n.id (jsOr n.data.action_type "check_equipment")
        (jsOr n.data.field "") (jsOr n.data.description "")
        (jsOr n.data.on_success "") ef.target none
        ∈ (flowToScript nodes edges orig now).steps) := by
  have hmem := compileNode_mem_steps nodes edges orig now n hn
    (by rw [isStepNodeType, ht]; decide)
  constructor
  · intro hs hts hf
    have he : compileNode (buildMaps edges) n =
        Step.action n.id (jsOr n.data.action_type "check_equipment")
          (jsOr n.data.field "") (jsOr n.data.description "")
          es.target (jsOr n.data.on_failure "") none := by
      rw [compileNode_action _ n ht]
      have hls : (buildMaps edges).actionNext n.id "success" = some es.target := by
        rw [buildMaps_actionNext edges n.id "success" hid (Or.inl rfl),
          reverse_find?_of_filter_single hs]
        rfl
      have hlf : (buildMaps edges).actionNext n.id "failure" = none := by
        rw [buildMaps_actionNext edges n.id "failure" hid (Or.inr rfl),
          reverse_find?_of_filter_nil hf]
        rfl
      rw [hls, hlf]
      simp only [optStr, Option.getD_some, Option.getD_none, jsOr_empty_left]
      rw [jsOr_ne n.data.on_success hts]
      simp only [jsOr_empty_right]
    exact he ▸ hmem
  · intro hf htf hs
    have he : compileNode (buildMaps edges) n =
        Step.action n.id (jsOr n.data.action_type "check_equipment")
          (jsOr n.data.field "") (jsOr n.data.description "")
          (jsOr n.data.on_success "") ef.target none := by
      rw [compileNode_action _ n ht]
      have hls : (buildMaps edges).actionNext n.id "success" = none := by
        rw [buildMaps_actionNext edges n.id "success" hid (Or.inl rfl),
          reverse_find?_of_filter_nil hs]
        rfl
      have hlf : (buildMaps edges).actionNext n.id "failure" = some ef.target := by
        rw [buildMaps_actionNext edges n.id "failure" hid (Or.inr rfl),
          reverse_find?_of_filter_single hf]
        rfl
      rw [hls, hlf]
      simp only [optStr, Option.getD_some, Option.getD_none, jsOr_empty_left]
      rw [jsOr_ne n.data.on_failure htf]
      simp only [jsOr_empty_right]
    exact he ▸ hmem

/-- C5 (witness): the amended statement at the concrete stale check graph,
success direction. -/
theorem check_fanout_c5_witness :
    Step.action "A" (jsOr "check_equipment" "check_equipment")
      (jsOr "device_number" "") (jsOr "" "") "S2" (jsOr "S9" "") none
      ∈ (flowToScript [staleCheckNode] [staleSuccessEdge] none 0).steps :=
  (check_fanout_c5 [staleCheckNode] [staleSuccessEdge] none 0 staleCheckNode
    staleSuccessEdge staleSuccessEdge (by decide) rfl (by decide)).1
    (by decide) (by decide) (by decide)

/-- C6: an option of a choice node with no outgoing edge on its handle
keeps the next_step value already held in the node data (empty string,
meaning dead end, when none was held), and compilation still returns a
Script containing the step: a dead-end option is not a compile error. -/
theorem choice_unresolved_option_c6 (nodes : List Node) (edges : List Edge)
    (orig : Option Script) (now : Nat) (n : Node) (i : Nat) (btn : BtnOption)
    (hn : n ∈ nodes) (ht : n.ntype = "buttonsNode") (hid : n.id ≠ "__start__")
    (hb : n.data.buttons[i]? = some btn)
    (hno : edges.filter (handleP n.id ("btn-" ++ toString i)) = []) :
    ∃ st ∈ (flowToScript nodes edges orig now).steps,
      st.id = n.id ∧
      st.optionAt i = some { btn with next_step := jsOr btn.next_step "" } := by
  refine ⟨compileNode (buildMaps edges) n,
    compileNode_mem_steps nodes edges orig now n hn (by rw [isStepNodeType, ht]; decide),
    ?_, ?_⟩
  · rw [compileNode_buttons _ n ht]
    rfl
  · rw [compileNode_optionAt _ n ht i, hb, Option.map_some']
    have hl : (buildMaps edges).buttonNext n.id ("btn-" ++ toString i) = none := by
      rw [buildMaps_buttonNext edges n.id _ hid (jsStartsWith_btn i),
        reverse_find?_of_filter_nil hno]
      rfl
    rw [hl]
    simp only [optStr, Option.getD_none, jsOr_empty_left, jsOr_empty_right]

/-- The single stored option of the dead-end witness choice node. -/
def deadEndBtn : BtnOption := { id := "btn_1", title := "T", next_step := "X" }

/-- A choice node holding one option whose stored next_step is X, used as
the dead-end witness. -/
def deadEndChoice : Node :=
  { id := "B", ntype := "buttonsNode",
    data := { text := "pick", buttons := [deadEndBtn] } }

/-- C6 (witness): the statement at a concrete choice graph with no edges at
all: the single option keeps its stored next_step X. -/
theorem choice_unresolved_option_c6_witness :
    ∃ st ∈ (flowToScript [deadEndChoice] [] none 0).steps,
      st.id = deadEndChoice.id ∧
      st.optionAt 0 = some { deadEndBtn with next_step := jsOr "X" "" } :=
  choice_unresolved_option_c6 [deadEndChoice] [] none 0 deadEndChoice 0
    deadEndBtn (by decide) rfl (by decide) (by decide) (by decide)

/-- First option of the fan-out witness choice node. -/
def fanBtn0 : BtnOption := { id := "btn_1", title := "A", next_step := "" }

/-- Second option of the fan-out witness choice node. -/
def fanBtn1 : BtnOption := { id := "btn_2", title := "B", next_step := "" }

/-- Third option of the fan-out witness choice node. -/
def fanBtn2 : BtnOption := { id := "btn_3", title := "C", next_step := "" }

/-- A choice node with three options, for the fan-out witness. -/
def fanChoice : Node :=
  { id := "B", ntype := "buttonsNode",
    data := { text := "pick", buttons := [fanBtn0, fanBtn1, fanBtn2] } }

/-- The btn-0 edge of the fan-out witness graph. -/
def fanEdge0 : Edge :=
  { id := "e0", source := "B", sourceHandle := some "btn-0", target := "S1" }

/-- The btn-1 edge of the fan-out witness graph. -/
def fanEdge1 : Edge :=
  { id := "e1", source := "B", sourceHandle := some "btn-1", target := "S2" }

/-- The btn-2 edge of the fan-out witness graph. -/
def fanEdge2 : Edge :=
  { id := "e2", source := "B", sourceHandle := some "btn-2", target := "S3" }

/-- C2 (witness): the fan-out statement at a concrete three-option graph. -/
theorem choice_fanout_c2_witness :
    ∃ st ∈ (flowToScript [fanChoice] [fanEdge0, fanEdge1, fanEdge2] none 0).steps,
      st.id = fanChoice.id ∧
      st.optionAt 0 = some { fanBtn0 with next_step := fanEdge0.target } ∧
      st.optionAt 1 = some { fanBtn1 with next_step := fanEdge1.target } ∧
      st.optionAt 2 = some { fanBtn2 with next_step := fanEdge2.target } :=
  choice_fanout_c2 [fanChoice] [fanEdge0, fanEdge1, fanEdge2] none 0 fanChoice
    fanBtn0 fanBtn1 fanBtn2 fanEdge0 fanEdge1 fanEdge2
    (by decide) rfl (by decide) rfl
    (by decide) (by decide) (by decide) (by decide) (by decide) (by decide)

/-- Every edge the decompiler emits for a step is sourced at that step's
id. -/
theorem stepEdges_source {st : Step} {e : Edge} (he : e ∈ stepEdges st) :
    e.source = st.id := by
  cases st with
  | text_input sid t sv ns sk =>
    rcases sk with _ | skc <;>
      simp only [stepEdges, Step.id, Step.skipIf, List.mem_append] at he ⊢
    · rcases he with h | h
      · by_cases hns : ns = ""
        · rw [if_pos hns] at h
          cases h
        · rw [if_neg hns] at h
          rw [List.mem_singleton.mp h]
      · cases h
    · rcases he with h | h
      · by_cases hns : ns = ""
        · rw [if_pos hns] at h
          cases h
        · rw [if_neg hns] at h
          rw [List.mem_singleton.mp h]
      · by_cases hg : skc.goto = ""
        · rw [if_pos hg] at h
          cases h
        · rw [if_neg hg] at h
          rw [List.mem_singleton.mp h]
  | buttons sid t bs sk =>
    rcases sk with _ | skc <;>
      simp only [stepEdges, btnEdges, Step.id, Step.skipIf, List.mem_append] at he ⊢
    · rcases he with h | h
      · rcases List.mem_filterMap.mp h with ⟨p, _, hpe⟩
        by_cases hn : p.2.next_step = ""
        · rw [if_pos hn] at hpe
          cases hpe
        · rw [if_neg hn] at hpe
          injection hpe with h2
          rw [← h2]
      · cases h
    · rcases he with h | h
      · rcases List.mem_filterMap.mp h with ⟨p, _, hpe⟩
        by_cases hn : p.2.next_step = ""
        · rw [if_pos hn] at hpe
          cases hpe
        · rw [if_neg hn] at hpe
          injection hpe with h2
          rw [← h2]
      · by_cases hg : skc.goto = ""
        · rw [if_pos hg] at h
          cases h
        · rw [if_neg hg] at h
          rw [List.mem_singleton.mp h]
  | action sid at_ fi de os of sk =>
    rcases sk with _ | skc <;>
      simp only [stepEdges, Step.id, Step.skipIf, List.mem_append] at he ⊢
    · rcases he with (h | h) | h
      · by_cases hos : os = ""
        · rw [if_pos hos] at h
          cases h
        · rw [if_neg hos] at h
          rw [List.mem_singleton.mp h]
      · by_cases hof : of = ""
        · rw [if_pos hof] at h
          cases h
        · rw [if_neg hof] at h
          rw [List.mem_singleton.mp h]
      · cases h
    · rcases he with (h | h) | h
      · by_cases hos : os = ""
        · rw [if_pos hos] at h
          cases h
        · rw [if_neg hos] at h
          rw [List.mem_singleton.mp h]
      · by_cases hof : of = ""
        · rw [if_pos hof] at h
          cases h
        · rw [if_neg hof] at h
          rw [List.mem_singleton.mp h]
      · by_cases hg : skc.goto = ""
        · rw [if_pos hg] at h
          cases h
        · rw [if_neg hg] at h
          rw [List.mem_singleton.mp h]

/-- The edges of the decompiled step list are the concatenation of the
per-step edge lists, independently of positions. -/
theorem stepsToFlow_edges (sp : List (String × Pos)) : ∀ (y : Int) (ss : List Step),
    (stepsToFlow sp y ss).2.1 = ss.flatMap stepEdges
  | _, [] => rfl
  | y, st :: rest => by
    simp only [stepsToFlow, List.flatMap_cons]
    rw [stepsToFlow_edges sp (y + stepYBump st + 160) rest]

/-- Filtering the concatenated step edges by one step's id returns exactly
that step's edges, provided step ids are distinct. -/
theorem filter_flatMap_stepEdges {st : Step} : ∀ {ss : List Step},
    (ss.map Step.id).Nodup → st ∈ ss →
    ((ss.flatMap stepEdges).filter fun e => e.source == st.id) = stepEdges st := by
  intro ss
  induction ss with
  | nil => exact fun _ h => absurd h (List.not_mem_nil st)
  | cons a ss ih =>
    intro hnd hm
    have hand : (∀ x ∈ ss, ¬ Step.id x = a.id) ∧ (ss.map Step.id).Nodup := by
      simpa using hnd
    rw [List.flatMap_cons, List.filter_append]
    rcases List.mem_cons.mp hm with rfl | hm'
    · have h1 : (stepEdges st).filter (fun e => e.source == st.id) = stepEdges st :=
        List.filter_eq_self.mpr (fun e he => by
          simp only [beq_iff_eq]
          exact stepEdges_source he)
      have h2 : ((ss.flatMap stepEdges).filter fun e => e.source == st.id) = [] := by
        refine List.filter_eq_nil_iff.mpr (fun e he => ?_)
        rcases List.mem_flatMap.mp he with ⟨t, htm, hte⟩
        have h3 : e.source = t.id := stepEdges_source hte
        have h4 : t.id ≠ st.id := hand.1 t htm
        simp [h3, h4]
      rw [h1, h2, List.append_nil]
    · have h1 : (stepEdges a).filter (fun e => e.source == st.id) = [] := by
        refine List.filter_eq_nil_iff.mpr (fun e he => ?_)
        have h3 : e.source = a.id := stepEdges_source he
        have h4 : a.id ≠ st.id := fun hEq => hand.1 st hm' hEq.symm
        simp [h3, h4]
      rw [h1, List.nil_append]
      exact ih hand.2 hm'

/-- A valid canonical script whose single action step has empty on_success
and on_failure (dead ends on both branches, a lint warning, not an error). -/
def bareCheckScript : Script :=
  { script_id := "S", name := "N", bot_instructions := "", greeting_known := "",
    greeting_unknown := "", first_step := "A1",
    steps := [.action "A1" "check_equipment" "device_number" "" "" "" none],
    done_actions := [("D1", { text := "", action := "save_service_call" })],
    active := some true, flow_positions := [] }

/-- C8 (counterexample): decompiling bareCheckScript emits zero edges for
its action step, not the two labeled success and failure edges the claim
promises for every action step. -/
theorem action_edges_not_unconditional_c8 :
    ((scriptToFlow bareCheckScript).2.filter fun e => e.source == "A1") = [] := by
  decide

/-- C8 (amended): for a canonical script with distinct step ids none of
which is the synthetic start id, the edges the decompiler emits from a
given step are exactly that step's regenerated edges and nothing else: one
plain edge per populated next_step, one edge per option with populated
next_step labeled with the option title, one green-stroked success edge per
populated on_success and one red-stroked failure edge per populated
on_failure (none when the branch is empty, rather than two unconditionally),
and one dashed orange edge per skip_if with populated goto, labeled with the
skip field name. -/
theorem decompiler_edges_c8 (s : Script) (st : Step)
    (hmem : st ∈ s.steps)
    (hnodup : (s.steps.map Step.id).Nodup)
    (hstart : ∀ t ∈ s.steps, Step.id t ≠ "__start__") :
    ((scriptToFlow s).2.filter fun e => e.source == st.id) = stepEdges st := by
  have h2 : (scriptToFlow s).2 =
      (if s.first_step = "" then [] else
        [{ id := "__start__->" ++ s.first_step, source := "__start__",
           sourceHandle := none, target := s.first_step }]) ++
      (stepsToFlow s.flow_positions 210 s.steps).2.1 := rfl
  rw [h2, stepsToFlow_edges, List.filter_append]
  have hsid : ("__start__" == st.id) = false := by
    simp only [beq_eq_false_iff_ne]
    exact fun h => hstart st hmem h.symm
  by_cases hf : s.first_step = ""
  · rw [if_pos hf, List.filter_nil, List.nil_append]
    exact filter_flatMap_stepEdges hnodup hmem
  · rw [if_neg hf]
    have h3 : List.filter (fun (e : Edge) => e.source == st.id)
        ([{ id := "__start__->" ++ s.first_step, source := "__start__",
            sourceHandle := none, target := s.first_step }] : List Edge) = [] := by
      simp [hsid]
    rw [h3, List.nil_append]
    exact filter_flatMap_stepEdges hnodup hmem

/-- A small valid script for the edge-regeneration witness: a text step
wired to a terminal, plus an unconnected text step. -/
def twoStepScript : Script :=
  { script_id := "S", name := "N", bot_instructions := "", greeting_known := "",
    greeting_unknown := "", first_step := "S1",
    steps := [.text_input "S1" "q" "" "D1" none, .text_input "S2" "q" "" "" none],
    done_actions := [("D1", { text := "bye", action := "save_service_call" })],
    active := some true, flow_positions := [] }

/-- C8 (witness): the amended statement at twoStepScript and its first
step. -/
theorem decompiler_edges_c8_witness :
    ((scriptToFlow twoStepScript).2.filter fun e =>
      e.source == Step.id (.text_input "S1" "q" "" "D1" none)) =
    stepEdges (.text_input "S1" "q" "" "D1" none) :=
  decompiler_edges_c8 twoStepScript (.text_input "S1" "q" "" "D1" none)
    (by decide) (by decide) (by decide)

/-- An edge from the start node into S1, used by the deletion witness. -/
def delEdge : Edge := { id := "e", source := "__start__", target := "S1" }

/-- C9 (witness): the deletion invariant at a concrete two-node graph with
one edge into the deleted node. -/
theorem delete_node_c9_witness :
    (∀ e ∈ (deleteNode "S1" [startNode0, stepNode0] [delEdge]).2,
      e.source ≠ "S1" ∧ e.target ≠ "S1") ∧
    (∀ n : Node, n ∈ (deleteNode "S1" [startNode0, stepNode0] [delEdge]).1 ↔
      n ∈ [startNode0, stepNode0] ∧ n.id ≠ "S1") ∧
    (∀ e : Edge, e ∈ (deleteNode "S1" [startNode0, stepNode0] [delEdge]).2 ↔
      e ∈ [delEdge] ∧ e.source ≠ "S1" ∧ e.target ≠ "S1") ∧
    (deleteNode "S1" [startNode0, stepNode0] [delEdge]).1.Sublist
      [startNode0, stepNode0] ∧
    (deleteNode "S1" [startNode0, stepNode0] [delEdge]).2.Sublist [delEdge] :=
  delete_node_c9 "S1" [startNode0, stepNode0] [delEdge]
